import Mathlib

/-!
Verification of the sunxi-tools FEL host driver (src/fel.c) against its
natural-language specification.  The C functions relevant to the claims are
shallowly embedded as executable Lean definitions: machine integers become
Nat with explicit reductions modulo 2^32 where the C arithmetic can wrap,
device I/O becomes explicit transaction traces, and fatal exits become
Except errors.  All definitions are transcribed from the C source.
-/

namespace Fel

/-! ## AW-USB / FEL transaction trace model

Transcribed from fel.c lines 175-295.  An AW-USB transaction is what
aw_usb_write / aw_usb_read perform: a 32-byte AWUC framing request with
sub-request WRITE (0x12) or READ (0x11), the payload transfer of the stated
byte length, and a 13-byte AWUS status read.  The constructors below stand
for one whole such transaction; the tag records what the payload carries
(the 16-byte FEL request, bulk data, or the trailing 8-byte FEL status). -/

/-- Role of the payload carried by one AW-USB transaction. -/
inductive PayloadTag where
  | felRequest : PayloadTag
  | data : PayloadTag
  | felStatus : PayloadTag
deriving DecidableEq, Repr

/-- One complete AW-USB transaction: framing request + payload + 13-byte
status.  awWrite corresponds to aw_usb_write (sub-request 0x12, payload on
EP_OUT), awRead to aw_usb_read (sub-request 0x11, payload on EP_IN). -/
inductive AwTrans where
  | awWrite : Nat → PayloadTag → AwTrans
  | awRead : Nat → PayloadTag → AwTrans
deriving DecidableEq, Repr

/-- Trace of aw_usb_write (fel.c line 194): one AW-USB WRITE transaction. -/
def aw_usb_write (len : Nat) (tag : PayloadTag) : List AwTrans :=
  [AwTrans.awWrite len tag]

/-- Trace of aw_usb_read (fel.c line 202): one AW-USB READ transaction. -/
def aw_usb_read (len : Nat) (tag : PayloadTag) : List AwTrans :=
  [AwTrans.awRead len tag]

/-- Trace of aw_send_fel_request (fel.c line 221): the 16-byte FEL request
record is sent through aw_usb_write. -/
def aw_send_fel_request : List AwTrans :=
  aw_usb_write 16 PayloadTag.felRequest

/-- Trace of aw_read_fel_status (fel.c line 231): 8 bytes are read through
aw_usb_read (the bytes are not inspected). -/
def aw_read_fel_status : List AwTrans :=
  aw_usb_read 8 PayloadTag.felStatus

/-- Trace of aw_fel_get_version (fel.c line 237): FEL VERSION request,
32-byte reply payload, trailing FEL status. -/
def aw_fel_get_version_trace : List AwTrans :=
  aw_send_fel_request ++ aw_usb_read 32 PayloadTag.data ++ aw_read_fel_status

/-- Trace of aw_fel_read (fel.c line 277): FEL READ request, len-byte data
payload on the IN endpoint, trailing FEL status. -/
def aw_fel_read_trace (len : Nat) : List AwTrans :=
  aw_send_fel_request ++ aw_usb_read len PayloadTag.data ++ aw_read_fel_status

/-- Trace of aw_fel_write (fel.c line 284): FEL WRITE request, len-byte data
payload on the OUT endpoint, trailing FEL status. -/
def aw_fel_write_trace (len : Nat) : List AwTrans :=
  aw_send_fel_request ++ aw_usb_write len PayloadTag.data ++ aw_read_fel_status

/-- Trace of aw_fel_execute (fel.c line 291): FEL EXEC request and trailing
FEL status; there is no data payload. -/
def aw_fel_execute_trace : List AwTrans :=
  aw_send_fel_request ++ aw_read_fel_status

/-- Test for an AW-USB WRITE transaction carrying the 16-byte FEL request. -/
def AwTrans.isFelRequestWrite : AwTrans → Bool
  | AwTrans.awWrite _ PayloadTag.felRequest => true
  | _ => false

/-- Test for an AW-USB READ transaction carrying a data payload. -/
def AwTrans.isDataRead : AwTrans → Bool
  | AwTrans.awRead _ PayloadTag.data => true
  | _ => false

/-! ## aw_write_buffer and the U-Boot overwrite guard

Transcribed from fel.c lines 304-322.  The globals uboot_entry / uboot_size
(set by aw_fel_write_uboot_image, lines 1137-1138) are passed explicitly.
In the C code offset, uboot_entry and uboot_size are uint32_t, so the sum
uboot_entry + uboot_size wraps modulo 2^32, while offset + len is computed
in size_t (len is a size_t and in this tool is always below 2^32, so that
sum does not wrap).  A fatal exit(1) is modelled as an Except.error: no
FEL transaction is emitted for the rejected request. -/
def aw_write_buffer (uboot_entry uboot_size offset len : Nat) :
    Except String (List AwTrans) :=
  if 0 < uboot_size ∧ offset ≤ (uboot_entry + uboot_size) % 2 ^ 32 ∧
      uboot_entry ≤ offset + len then
    Except.error "ERROR: Attempt to overwrite U-Boot!"
  else
    Except.ok (aw_send_fel_request ++ aw_usb_write len PayloadTag.data ++
               aw_read_fel_status)

/-! ## mkimage header parsing and U-Boot image recording

Transcribed from fel.c lines 159-173 and 1082-1139.  A buffer is a list of
byte values; word32be reads a big-endian 32-bit word (the mkimage header is
big-endian on the wire). -/

/-- Big-endian 32-bit word number i of a byte buffer. -/
def word32be (buf : List Nat) (i : Nat) : Nat :=
  16777216 * buf.getD (4 * i) 0 + 65536 * buf.getD (4 * i + 1) 0 +
    256 * buf.getD (4 * i + 2) 0 + buf.getD (4 * i + 3) 0

/-- Byte size of the mkimage header (name offset 32 + name length 32). -/
def HEADER_SIZE : Nat := 64

/-- Transcription of get_image_type (fel.c line 159).  Returns 0 for
IH_TYPE_INVALID, -1 for IH_TYPE_ARCH_MISMATCH, otherwise the ih_type
byte. -/
def get_image_type (buf : List Nat) : Int :=
  if buf.length ≤ HEADER_SIZE then 0
  else if word32be buf 0 ≠ 0x27051956 then 0
  else if buf.getD 29 0 ≠ 2 then -1
  else buf.getD 30 0

/-- Transcription of aw_fel_write_uboot_image (fel.c line 1082), reduced to
the state it records: on success it returns some (load_addr, data_size),
the values stored into the globals uboot_entry / uboot_size; a buffer not
larger than the header returns none (the C function just bails out);
validation failures are fatal (Except.error). -/
def aw_fel_write_uboot_image (buf : List Nat) :
    Except String (Option (Nat × Nat)) :=
  if buf.length ≤ HEADER_SIZE then Except.ok none
  else if get_image_type buf ≤ 0 then Except.error "Invalid U-Boot image"
  else if get_image_type buf ≠ 5 then
    Except.error "U-Boot image type mismatch"
  else if word32be buf 3 ≠ buf.length - HEADER_SIZE then
    Except.error "U-Boot image data size mismatch"
  else Except.ok (some (word32be buf 4, word32be buf 3))

/-! ## Scratch-code readl_n / writel_n thunks

Transcribed from fel.c lines 496-634.  The scratch code/buffer must not
exceed 0x400 bytes (256 32-bit words); the ARM loop code takes 12 words,
leaving at most 244 data words per round trip. -/

/-- Word count of the readl_n / writel_n scratch code (fel.c line 496). -/
def LCODE_ARM_WORDS : Nat := 12

/-- Byte size of the scratch code (fel.c line 497). -/
def LCODE_ARM_SIZE : Nat := LCODE_ARM_WORDS * 4

/-- Maximum total words in the scratch buffer (fel.c line 498). -/
def LCODE_MAX_TOTAL : Nat := 0x100

/-- Maximum data words per round trip (fel.c line 499). -/
def LCODE_MAX_WORDS : Nat := LCODE_MAX_TOTAL - LCODE_ARM_WORDS

/-- The 12-word ARM scratch code of aw_fel_readl_n (fel.c lines 514-529):
ten hand-assembled instruction words followed by the inlined read_addr and
read_count parameters.  The read data buffer starts right after. -/
def readl_code (addr count : Nat) : List Nat :=
  [0xe59f0020, 0xe28f1024, 0xe59f201c,
   0xe3520000 + LCODE_MAX_WORDS, 0xc3a02000 + LCODE_MAX_WORDS,
   0xe2522001, 0x412fff1e, 0xe4903004, 0xe4813004, 0xeafffffa,
   addr, count]

/-- The scratch payload of aw_fel_writel_n (fel.c lines 586-606): ten
instruction words, the inlined write_addr and write_count, then the count
data words copied from the source buffer. -/
def writel_code (addr count : Nat) (src : List Nat) : List Nat :=
  [0xe59f0020, 0xe28f1024, 0xe59f201c,
   0xe3520000 + LCODE_MAX_WORDS, 0xc3a02000 + LCODE_MAX_WORDS,
   0xe2522001, 0x412fff1e, 0xe4913004, 0xe4803004, 0xeafffffa,
   addr, count] ++ (List.range count).map (fun i => src.getD i 0)

/-- Device interactions of one scratch-code invocation: whether the
truncation warning was printed, the FEL writes (address, payload words),
the FEL execute calls, and the FEL reads (address, byte count). -/
structure LcodeTrace where
  warned : Bool
  uploads : List (Nat × List Nat)
  execs : List Nat
  reads : List (Nat × Nat)
deriving DecidableEq, Repr

/-- Transcription of aw_fel_readl_n (fel.c line 502): count 0 returns at
once; a count above LCODE_MAX_WORDS is truncated with a warning (not
fatal); then the 12-word code is uploaded to scratch_addr, executed, and
4*count bytes are read back from scratch_addr + LCODE_ARM_SIZE. -/
def aw_fel_readl_n (scratch_addr addr count : Nat) : LcodeTrace :=
  if count = 0 then ⟨false, [], [], []⟩
  else
    let warned := decide (LCODE_MAX_WORDS < count)
    let count := min count LCODE_MAX_WORDS
    ⟨warned, [(scratch_addr, readl_code addr count)], [scratch_addr],
     [(scratch_addr + LCODE_ARM_SIZE, 4 * count)]⟩

/-- Transcription of aw_fel_writel_n (fel.c line 570): count 0 returns at
once; a count above LCODE_MAX_WORDS is truncated with a warning (not
fatal); then the code plus count data words are uploaded in one FEL write
((LCODE_ARM_WORDS + count) * 4 bytes) and executed; nothing is read
back. -/
def aw_fel_writel_n (scratch_addr addr : Nat) (src : List Nat)
    (count : Nat) : LcodeTrace :=
  if count = 0 then ⟨false, [], [], []⟩
  else
    let warned := decide (LCODE_MAX_WORDS < count)
    let count := min count LCODE_MAX_WORDS
    ⟨warned, [(scratch_addr, writel_code addr count src)], [scratch_addr], []⟩

/-- Transcription of the fel_readl_n wrapper (fel.c line 557): rounds of at
most LCODE_MAX_WORDS words; each round is (device address, destination
word offset, word count); the device address advances by 4*n (uint32
arithmetic) and the destination pointer by n words per round. -/
def fel_readl_n (addr off count : Nat) : List (Nat × Nat × Nat) :=
  if count = 0 then []
  else
    let n := min count LCODE_MAX_WORDS
    (addr, off, n) :: fel_readl_n ((addr + n * 4) % 2 ^ 32) (off + n) (count - n)
termination_by count
decreasing_by
  have h12 : LCODE_MAX_WORDS = 244 := rfl
  omega

/-- Transcription of the fel_writel_n wrapper (fel.c line 624): identical
round structure, with the source pointer advancing by n words per round. -/
def fel_writel_n (addr off count : Nat) : List (Nat × Nat × Nat) :=
  if count = 0 then []
  else
    let n := min count LCODE_MAX_WORDS
    (addr, off, n) :: fel_writel_n ((addr + n * 4) % 2 ^ 32) (off + n) (count - n)
termination_by count
decreasing_by
  have h12 : LCODE_MAX_WORDS = 244 := rfl
  omega

/-- Expansion of one round into the (device word address, buffer word
offset) pairs it touches, in order. -/
def roundWords (r : Nat × Nat × Nat) : List (Nat × Nat) :=
  (List.range r.2.2).map (fun j => (r.1 + 4 * j, r.2.1 + j))

/-! ## SoC record and eGON / SPL validation

Transcribed from soc_info.h (as used by fel.c) and fel.c lines 920-1074.
Only the fields consulted by the embedded functions are kept.  The SPL
buffer is a list of byte values; word32 reads a little-endian 32-bit word
as le32toh does on the uint32_t view of the buffer. -/

/-- One swap-buffer entry of the per-SoC list (soc_info.h): bytes destined
for buf1 are staged at buf2; a zero size terminates the list. -/
structure sram_swap_buffers where
  buf1 : Nat
  buf2 : Nat
  size : Nat
deriving DecidableEq, Repr

/-- Per-SoC record (soc_info.h).  swap_buffers is none when the SoC has no
list (the C pointer is NULL), which aw_fel_write_and_execute_spl treats as
an unsupported SoC. -/
structure soc_info_t where
  scratch_addr : Nat
  spl_addr : Nat
  thunk_addr : Nat
  thunk_size : Nat
  swap_buffers : Option (List sram_swap_buffers)
  mmu_tt_addr : Nat
  needs_l2en : Bool
deriving DecidableEq, Repr

/-- Little-endian 32-bit word number i of a byte buffer. -/
def word32 (buf : List Nat) (i : Nat) : Nat :=
  buf.getD (4 * i) 0 + 256 * buf.getD (4 * i + 1) 0 +
    65536 * buf.getD (4 * i + 2) 0 + 16777216 * buf.getD (4 * i + 3) 0

/-- Wrap-around uint32_t subtraction: a - b modulo 2^32. -/
def sub32 (a b : Nat) : Nat := (a + (2 ^ 32 - b % 2 ^ 32)) % 2 ^ 32

/-- Sum of the first n little-endian words of the buffer. -/
def wordSum (buf : List Nat) (n : Nat) : Nat :=
  ((List.range n).map (word32 buf)).sum

/-- Check of memcmp(buf + 4, "eGON.BT0", 8) == 0 (fel.c line 941). -/
def egonSignatureOk (buf : List Nat) : Bool :=
  (buf.getD 4 0 == 0x65) && (buf.getD 5 0 == 0x47) &&
  (buf.getD 6 0 == 0x4F) && (buf.getD 7 0 == 0x4E) &&
  (buf.getD 8 0 == 0x2E) && (buf.getD 9 0 == 0x42) &&
  (buf.getD 10 0 == 0x54) && (buf.getD 11 0 == 0x30)

/-- Transcription of the eGON header validation of
aw_fel_write_and_execute_spl (fel.c lines 941-961): signature and minimum
length, then the stored SPL length (word 4) against the received length and
word alignment, then the checksum 2*stored - 0x5F0A6C39 - sum of the first
spl_len/4 words, all in uint32_t arithmetic.  Each failure is a fatal
exit(1), modelled as Except.error with the printed diagnostic. -/
def egonCheck (buf : List Nat) : Except String Unit :=
  if buf.length < 32 ∨ egonSignatureOk buf = false then
    Except.error "SPL: eGON header is not found"
  else if buf.length < word32 buf 4 ∨ word32 buf 4 % 4 ≠ 0 then
    Except.error "SPL: bad length in the eGON header"
  else if ((List.range (word32 buf 4 / 4)).map (word32 buf)).foldl sub32
      (sub32 (2 * word32 buf 3) 0x5F0A6C39) ≠ 0 then
    Except.error "SPL: checksum check failed"
  else Except.ok ()

/-- Maximum SPL size and start offset of the main U-Boot image within
u-boot-sunxi-with-spl.bin (fel.c line 920). -/
def SPL_LEN_LIMIT : Nat := 0x8000

/-- State threaded through the swap-buffer upload loop of
aw_fel_write_and_execute_spl (fel.c lines 995-1018): the device cursor
cur_addr, the offset into the SPL buffer reached so far (the C code
advances the buf pointer), the remaining byte count len, the running
spl_len_limit, and the FEL writes issued so far as (device address,
buffer offset, byte count) triples. -/
structure UploadState where
  cur_addr : Nat
  bufOff : Nat
  len : Nat
  spl_len_limit : Nat
  writes : List (Nat × Nat × Nat)
deriving DecidableEq, Repr

/-- One iteration of the swap-buffer loop (fel.c lines 996-1018): tighten
spl_len_limit when buf2 falls inside the SPL area, write the contiguous
part up to buf1 (at most the remaining len), then, when the cursor sits
exactly at buf1, write the next min(size, len) bytes to buf2 instead and
advance the cursor past buf1 by that amount. -/
def uploadStep (spl_addr : Nat) (s : UploadState) (sb : sram_swap_buffers) :
    UploadState :=
  let s :=
    if spl_addr ≤ sb.buf2 ∧ sb.buf2 < spl_addr + s.spl_len_limit then
      { s with spl_len_limit := sb.buf2 - spl_addr }
    else s
  let s :=
    if 0 < s.len ∧ s.cur_addr < sb.buf1 then
      let tmp := min (sb.buf1 - s.cur_addr) s.len
      { s with writes := s.writes ++ [(s.cur_addr, s.bufOff, tmp)],
               cur_addr := s.cur_addr + tmp, bufOff := s.bufOff + tmp,
               len := s.len - tmp }
    else s
  if 0 < s.len ∧ s.cur_addr = sb.buf1 then
    let tmp := min sb.size s.len
    { s with writes := s.writes ++ [(sb.buf2, s.bufOff, tmp)],
             cur_addr := s.cur_addr + tmp, bufOff := s.bufOff + tmp,
             len := s.len - tmp }
  else s

/-- Transcription of the SPL upload phase of aw_fel_write_and_execute_spl
(fel.c lines 995-1032): run the swap-buffer loop over the entries before
the zero-size sentinel, tighten the limit by thunk_addr, fail when the SPL
exceeds the limit (the loop writes already happened), otherwise write the
remaining bytes at the cursor.  Returns the FEL writes issued and an
optional fatal error. -/
def spl_upload_trace (soc : soc_info_t) (swaps : List sram_swap_buffers)
    (spl_len : Nat) : List (Nat × Nat × Nat) × Option String :=
  let s0 : UploadState := ⟨soc.spl_addr, 0, spl_len, SPL_LEN_LIMIT, []⟩
  let s := (swaps.takeWhile (fun sb => sb.size ≠ 0)).foldl
    (uploadStep soc.spl_addr) s0
  let limit := if soc.thunk_addr < s.spl_len_limit then soc.thunk_addr
               else s.spl_len_limit
  if limit < spl_len then (s.writes, some "SPL: too large")
  else (s.writes ++ (if 0 < s.len then [(s.cur_addr, s.bufOff, s.len)]
                     else []), none)

/-- Transcription of aw_fel_write_and_execute_spl (fel.c line 922) up to
and including the SPL upload: the swap-buffer null check, the eGON
validation, then the upload writes with len = spl_len.  A fatal exit
before the upload produces an empty write list. -/
def aw_fel_write_and_execute_spl (soc : soc_info_t) (buf : List Nat) :
    List (Nat × Nat × Nat) × Option String :=
  match soc.swap_buffers with
  | none => ([], some "SPL: Unsupported SoC type")
  | some swaps =>
    match egonCheck buf with
    | Except.error e => ([], some e)
    | Except.ok () => spl_upload_trace soc swaps (word32 buf 4)

/-- Example SoC record for the swap-buffer relocation scenario: spl_addr 0
and a single swap entry buf1 = 0x2000, buf2 = 0xA000, size = 0x400. -/
def soc_swap_demo : soc_info_t :=
  ⟨0x7010, 0, 0x8000, 0x200, some [⟨0x2000, 0xA000, 0x400⟩, ⟨0, 0, 0⟩],
   0, false⟩

/-- Example 32-byte SPL image passing the eGON validation: eGON.BT0
signature, stored length 32, and stored checksum chosen so that the
uint32_t checksum loop terminates at zero. -/
def demo_spl : List Nat :=
  [0, 0, 0, 0,
   0x65, 0x47, 0x4F, 0x4E, 0x2E, 0x42, 0x54, 0x30,
   0xEC, 0xF5, 0xAD, 0xDD,
   0x20, 0, 0, 0,
   0, 0, 0, 0, 0, 0, 0, 0, 0, 0, 0, 0]

/-- Example mkimage U-Boot image: 64-byte header (magic, ARM arch,
FIRMWARE type, data size 4, load address 0x4A000000) plus 4 data bytes. -/
def demo_uboot_image : List Nat :=
  [0x27, 0x05, 0x19, 0x56, 0, 0, 0, 0, 0, 0, 0, 0,
   0, 0, 0, 4,
   0x4A, 0, 0, 0,
   0, 0, 0, 0, 0, 0, 0, 0, 0, 2, 5, 0,
   0, 0, 0, 0, 0, 0, 0, 0, 0, 0, 0, 0, 0, 0, 0, 0,
   0, 0, 0, 0, 0, 0, 0, 0, 0, 0, 0, 0, 0, 0, 0, 0,
   0xDE, 0xAD, 0xBE, 0xEF]

/-! ## MMU manager

Transcribed from fel.c lines 706-914 and the MMU setup branch of
aw_fel_write_and_execute_spl (lines 971-993).  Coprocessor register values
read through the thunks are passed in explicitly; the register writes
performed through aw_set_dacr / aw_set_ttbcr / aw_set_ttbr0 are recorded as
a list. -/

/-- One coprocessor register write issued through a thunk. -/
inductive cp_reg_write where
  | dacr : Nat → cp_reg_write
  | ttbcr : Nat → cp_reg_write
  | ttbr0 : Nat → cp_reg_write
deriving DecidableEq, Repr

/-- Transcription of aw_generate_mmu_translation_table (fel.c line 758):
4096 section entries 0x00000DE2 | (i << 20) (strongly ordered, direct
mapped), with bit 12 additionally set on the first and last entries
(Normal memory). -/
def aw_generate_mmu_translation_table : List Nat :=
  let tt := (List.range 4096).map (fun i => 0x00000DE2 ||| (i <<< 20))
  let tt := tt.set 0x000 (tt.getD 0x000 0 ||| 0x1000)
  tt.set 0xFFF (tt.getD 0xFFF 0 ||| 0x1000)

/-- Per-entry sanity check of the backup path (fel.c lines 843-852): a
section descriptor (bit 1 set, bit 18 clear) that direct-maps section i. -/
def mmu_section_ok (e i : Nat) : Bool :=
  (((e >>> 1) &&& 1) == 1) && (((e >>> 18) &&& 1) == 0) && ((e >>> 20) == i)

/-- All 4096 entries of the table read from TTBR0 pass the sanity check. -/
def mmuTableOk (tt : List Nat) : Bool :=
  (List.range 4096).all (fun i => mmu_section_ok (tt.getD i 0) i)

/-- Observable outcome of aw_backup_and_disable_mmu: which coprocessor
registers were read (in order), whether the 16 KiB table was read from
TTBR0, and the result — an error for a fatal exit(1), ok none when the
BROM left the MMU off, ok (some tt) for a captured backup. -/
structure BackupTrace where
  regReads : List String
  tableRead : Bool
  result : Except String (Option (List Nat))
deriving Repr

/-- Transcription of aw_backup_and_disable_mmu (fel.c line 777).  The
SCTLR check masks off bits 11-13 (Z, I, and bit 13), 6 and 0 (M) and
compares against 0x00C50038; with SCTLR.M clear it returns no backup
having read only SCTLR; otherwise DACR, TTBCR and TTBR0 are validated
against the BROM defaults, the table is read and every entry checked. -/
def aw_backup_and_disable_mmu (sctlr dacr ttbcr ttbr0 : Nat)
    (tt : List Nat) : BackupTrace :=
  if sctlr &&& (0xFFFFFFFF ^^^ ((0x7 <<< 11) ||| (1 <<< 6) ||| 1)) ≠
      0x00C50038 then
    ⟨["SCTLR"], false, Except.error "Unexpected SCTLR"⟩
  else if sctlr &&& 1 = 0 then
    ⟨["SCTLR"], false, Except.ok none⟩
  else if dacr ≠ 0x55555555 then
    ⟨["SCTLR", "DACR"], false, Except.error "Unexpected DACR"⟩
  else if ttbcr ≠ 0 then
    ⟨["SCTLR", "DACR", "TTBCR"], false, Except.error "Unexpected TTBCR"⟩
  else if ttbr0 &&& 0x3FFF ≠ 0 then
    ⟨["SCTLR", "DACR", "TTBCR", "TTBR0"], false,
     Except.error "Unexpected TTBR0"⟩
  else if mmuTableOk tt = false then
    ⟨["SCTLR", "DACR", "TTBCR", "TTBR0"], true,
     Except.error "MMU: not a valid translation table"⟩
  else
    ⟨["SCTLR", "DACR", "TTBCR", "TTBR0"], true, Except.ok (some tt)⟩

/-- The TEX/C/B bit mask cleared by the restore path (fel.c lines 890,
897): bits 14..12 (TEX), 3 (C) and 2 (B). -/
def texcb_clear_mask : Nat := (7 <<< 12) ||| (1 <<< 3) ||| (1 <<< 2)

/-- Clear the TEX/C/B bits of a 32-bit entry and set them to b. -/
def texcb_update (e b : Nat) : Nat :=
  (e &&& (0xFFFFFFFF ^^^ texcb_clear_mask)) ||| b

/-- Transcription of the table rewrite of aw_restore_and_enable_mmu
(fel.c lines 886-901): every DRAM section entry (indices 0x400..0xBFF,
covering 0x40000000..0xC0000000) gets TEX/C/B = 00100, and the BROM entry
at index 0xFFF gets TEX/C/B = 00111. -/
def aw_restore_and_enable_mmu (tt : List Nat) : List Nat :=
  let tt := (List.range' 0x400 0x800).foldl
    (fun t i => t.set i (texcb_update (t.getD i 0) (1 <<< 12))) tt
  tt.set 0xFFF (texcb_update (tt.getD 0xFFF 0)
    ((1 <<< 12) ||| (1 <<< 3) ||| (1 <<< 2)))

/-- Transcription of the MMU setup branch of aw_fel_write_and_execute_spl
(fel.c lines 971-993): with a backup in hand nothing happens; with no
backup and a nonzero mmu_tt_addr, a misaligned address is fatal, otherwise
DACR, TTBCR, TTBR0 are set to the canonical BROM defaults and the flat
table is synthesized; with no backup and no mmu_tt_addr nothing happens. -/
def spl_mmu_setup (tt : Option (List Nat)) (mmu_tt_addr : Nat) :
    Except String (List cp_reg_write × Option (List Nat)) :=
  match tt with
  | some t => Except.ok ([], some t)
  | none =>
    if mmu_tt_addr ≠ 0 then
      if mmu_tt_addr &&& 0x3FFF ≠ 0 then
        Except.error "SPL: mmu_tt_addr must be 16K aligned"
      else
        Except.ok ([cp_reg_write.dacr 0x55555555, cp_reg_write.ttbcr 0,
                    cp_reg_write.ttbr0 mmu_tt_addr],
                   some aw_generate_mmu_translation_table)
    else Except.ok ([], none)

end Fel

/-! ## Theorems for claims C9, C6, C10 -/

namespace Fel

/-- C9 (counterexample): a FEL read operation generates three AW-USB
transactions (request, data payload, trailing status), not two as the
claim states. -/
theorem c9_two_transactions_false :
    ¬ (aw_fel_read_trace 4).length = 2 ∧ (aw_fel_read_trace 4).length = 3 := by
  constructor
  · decide
  · decide

/-- C9 (amended): every FEL operation generates exactly one AW-USB WRITE
transaction carrying the 16-byte FEL request, then an optional data-payload
transaction (AW-USB WRITE for FEL WRITE, AW-USB READ for FEL READ and
VERSION), then a trailing AW-USB READ of the 8-byte FEL status; transactions
of one operation stay contiguous.  This makes two AW-USB transactions for
EXEC and three for VERSION, READ and WRITE. -/
theorem c9_transaction_shape (len : Nat) :
    aw_fel_execute_trace =
      [AwTrans.awWrite 16 PayloadTag.felRequest,
       AwTrans.awRead 8 PayloadTag.felStatus] ∧
    aw_fel_read_trace len =
      [AwTrans.awWrite 16 PayloadTag.felRequest,
       AwTrans.awRead len PayloadTag.data,
       AwTrans.awRead 8 PayloadTag.felStatus] ∧
    aw_fel_write_trace len =
      [AwTrans.awWrite 16 PayloadTag.felRequest,
       AwTrans.awWrite len PayloadTag.data,
       AwTrans.awRead 8 PayloadTag.felStatus] ∧
    aw_fel_get_version_trace =
      [AwTrans.awWrite 16 PayloadTag.felRequest,
       AwTrans.awRead 32 PayloadTag.data,
       AwTrans.awRead 8 PayloadTag.felStatus] ∧
    (aw_fel_execute_trace.countP AwTrans.isFelRequestWrite = 1 ∧
     (aw_fel_read_trace len).countP AwTrans.isFelRequestWrite = 1 ∧
     (aw_fel_write_trace len).countP AwTrans.isFelRequestWrite = 1 ∧
     aw_fel_get_version_trace.countP AwTrans.isFelRequestWrite = 1) ∧
    ((aw_fel_read_trace len).countP AwTrans.isDataRead = 1 ∧
     aw_fel_get_version_trace.countP AwTrans.isDataRead = 1) ∧
    (aw_fel_execute_trace.length = 2 ∧ (aw_fel_read_trace len).length = 3 ∧
     (aw_fel_write_trace len).length = 3 ∧
     aw_fel_get_version_trace.length = 3) := by
  refine ⟨rfl, rfl, rfl, rfl, ⟨rfl, ?_, ?_, rfl⟩, ⟨?_, rfl⟩, rfl, ?_, ?_, rfl⟩ <;>
    simp [aw_fel_read_trace, aw_fel_write_trace, aw_send_fel_request,
          aw_read_fel_status, aw_usb_read, aw_usb_write, List.countP_cons,
          AwTrans.isFelRequestWrite, AwTrans.isDataRead]

/-- C6: once a U-Boot image has been recorded (aw_fel_write_uboot_image
returned some (entry, size) with size > 0), any aw_write_buffer request
whose byte range [offset, offset+len) intersects [entry, entry+size) is
rejected with a fatal error and emits no AW-USB transaction. -/
theorem c6_overwrite_guard (img : List Nat) (entry size offset len : Nat)
    (_hrec : aw_fel_write_uboot_image img = Except.ok (some (entry, size)))
    (hsz : 0 < size) (hnow : entry + size < 2 ^ 32)
    (hint1 : offset < entry + size) (hint2 : entry < offset + len) :
    aw_write_buffer entry size offset len =
      Except.error "ERROR: Attempt to overwrite U-Boot!" := by
  unfold aw_write_buffer
  rw [if_pos]
  exact ⟨hsz, by rw [Nat.mod_eq_of_lt hnow]; omega, by omega⟩

/-- C10: the overwrite guard is closed at both ends.  With a recorded
U-Boot region of positive size, a request that merely abuts the region
(offset + len = entry, or offset = entry + size) is also rejected fatally,
because the guard tests offset ≤ entry + size and entry ≤ offset + len. -/
theorem c10_guard_closed_ends (entry size offset len : Nat)
    (hsz : 0 < size) (hnow : entry + size < 2 ^ 32)
    (habut : offset + len = entry ∨ offset = entry + size) :
    aw_write_buffer entry size offset len =
      Except.error "ERROR: Attempt to overwrite U-Boot!" := by
  unfold aw_write_buffer
  rw [if_pos]
  refine ⟨hsz, ?_, ?_⟩
  · rw [Nat.mod_eq_of_lt hnow]
    rcases habut with h | h <;> omega
  · rcases habut with h | h <;> omega

/-! ## Theorems for claims C7 and C8 -/

/-- C7: scratch-buffer discipline of the single-round thunks.  Count 0
performs no device transfer at all; a count above 244 is truncated to 244
with a (non-fatal) warning; the uploaded payload is 12 code words for
readl_n (with min(count,244) words read back from scratch_addr + 48) and
12 + min(count,244) words for writel_n, never more than 256 words
(1024 bytes). -/
theorem c7_lcode_scratch_bounds (scratch addr count : Nat) (src : List Nat) :
    LCODE_MAX_WORDS = 244 ∧
    (aw_fel_readl_n scratch addr 0 = ⟨false, [], [], []⟩ ∧
     aw_fel_writel_n scratch addr src 0 = ⟨false, [], [], []⟩) ∧
    (244 < count →
      (aw_fel_readl_n scratch addr count).warned = true ∧
      (aw_fel_writel_n scratch addr src count).warned = true) ∧
    (count ≤ 244 →
      (aw_fel_readl_n scratch addr count).warned = false ∧
      (aw_fel_writel_n scratch addr src count).warned = false) ∧
    (count ≠ 0 →
      (aw_fel_readl_n scratch addr count).uploads =
        [(scratch, readl_code addr (min count 244))] ∧
      (readl_code addr (min count 244)).length = 12 ∧
      (aw_fel_readl_n scratch addr count).reads =
        [(scratch + 48, 4 * min count 244)] ∧
      (aw_fel_writel_n scratch addr src count).uploads =
        [(scratch, writel_code addr (min count 244) src)] ∧
      (writel_code addr (min count 244) src).length = 12 + min count 244) ∧
    12 + min count 244 ≤ 256 := by
  have hmax : LCODE_MAX_WORDS = 244 := rfl
  refine ⟨rfl, ⟨rfl, rfl⟩, ?_, ?_, ?_, by omega⟩
  · intro h
    have hne : count ≠ 0 := by omega
    constructor <;>
      simp [aw_fel_readl_n, aw_fel_writel_n, hne, hmax, h]
  · intro h
    by_cases hne : count = 0
    · subst hne; exact ⟨rfl, rfl⟩
    · constructor <;>
        simp [aw_fel_readl_n, aw_fel_writel_n, hne, hmax, Nat.not_lt.mpr h]
  · intro hne
    refine ⟨?_, by simp [readl_code], ?_, ?_, ?_⟩
    · simp [aw_fel_readl_n, hne, hmax]
    · simp [aw_fel_readl_n, hne, hmax]
      rfl
    · simp [aw_fel_writel_n, hne, hmax]
    · simp [writel_code]
      omega

/-- C7 witness: the bounds at the truncation boundary count = 245. -/
theorem c7_lcode_scratch_bounds_witness :
    (244 < 245 →
      (aw_fel_readl_n 0x7010 0x40000000 245).warned = true ∧
      (aw_fel_writel_n 0x7010 0x40000000 [] 245).warned = true) ∧
    (245 ≠ 0 →
      (aw_fel_readl_n 0x7010 0x40000000 245).uploads =
        [(0x7010, readl_code 0x40000000 (min 245 244))] ∧
      (readl_code 0x40000000 (min 245 244)).length = 12 ∧
      (aw_fel_readl_n 0x7010 0x40000000 245).reads =
        [(0x7010 + 48, 4 * min 245 244)] ∧
      (aw_fel_writel_n 0x7010 0x40000000 [] 245).uploads =
        [(0x7010, writel_code 0x40000000 (min 245 244) [])] ∧
      (writel_code 0x40000000 (min 245 244) []).length = 12 + min 245 244) ∧
    12 + min 245 244 ≤ 256 :=
  ⟨(c7_lcode_scratch_bounds 0x7010 0x40000000 245 []).2.2.1,
   (c7_lcode_scratch_bounds 0x7010 0x40000000 245 []).2.2.2.2.1,
   (c7_lcode_scratch_bounds 0x7010 0x40000000 245 []).2.2.2.2.2⟩

/-- Helper: the two multi-chunk wrappers compute identical round lists. -/
theorem fel_writel_n_eq_readl_n (addr off count : Nat) :
    fel_writel_n addr off count = fel_readl_n addr off count := by
  induction count using Nat.strong_induction_on generalizing addr off with
  | _ count ih =>
    by_cases h0 : count = 0
    · subst h0
      simp [fel_writel_n, fel_readl_n]
    · rw [fel_writel_n, fel_readl_n, if_neg h0, if_neg h0]
      have hmax : LCODE_MAX_WORDS = 244 := rfl
      exact congrArg (List.cons (addr, off, min count LCODE_MAX_WORDS))
        (ih (count - min count LCODE_MAX_WORDS) (by omega)
            ((addr + min count LCODE_MAX_WORDS * 4) % 2 ^ 32)
            (off + min count LCODE_MAX_WORDS))

/-- Helper: each round of the multi-chunk wrapper transfers between 1 and
244 words. -/
theorem fel_readl_n_round_bounds (addr off count : Nat) :
    ∀ r ∈ fel_readl_n addr off count, 1 ≤ r.2.2 ∧ r.2.2 ≤ 244 := by
  induction count using Nat.strong_induction_on generalizing addr off with
  | _ count ih =>
    by_cases h0 : count = 0
    · subst h0
      rw [fel_readl_n]
      simp
    · rw [fel_readl_n, if_neg h0]
      have hmax : LCODE_MAX_WORDS = 244 := rfl
      intro r hr
      rcases List.mem_cons.mp hr with h | h
      · subst h
        simp only []
        omega
      · exact ih (count - min count LCODE_MAX_WORDS) (by omega) _ _ r h

/-- Helper: flattening the rounds of fel_readl_n yields the words at
addr, addr+4, ..., addr+4*(count-1) paired with buffer offsets off,
off+1, ..., in order, provided the address range does not wrap. -/
theorem fel_readl_n_flat (count : Nat) :
    ∀ addr off, addr + 4 * count ≤ 2 ^ 32 →
      (fel_readl_n addr off count).flatMap roundWords =
        (List.range count).map (fun j => (addr + 4 * j, off + j)) := by
  induction count using Nat.strong_induction_on with
  | _ count ih =>
    intro addr off h
    by_cases h0 : count = 0
    · subst h0
      rw [fel_readl_n]
      simp
    · rw [fel_readl_n, if_neg h0]
      have hmax : LCODE_MAX_WORDS = 244 := rfl
      set n := min count LCODE_MAX_WORDS with hn
      have hn1 : 1 ≤ n := by omega
      have hnc : n ≤ count := by omega
      rw [List.flatMap_cons]
      have hsplit : count = n + (count - n) := by omega
      have hrange : List.range count =
          List.range n ++ (List.range (count - n)).map (fun x => n + x) := by
        conv_lhs => rw [hsplit, List.range_add]
      rw [hrange, List.map_append, List.map_map]
      congr 1
      by_cases htail : count - n = 0
      · rw [htail, fel_readl_n]
        simp
      · simp only [show (2 : Nat) ^ 32 = 4294967296 from by norm_num]
        have hmod : (addr + n * 4) % 4294967296 = addr + n * 4 :=
          Nat.mod_eq_of_lt (by omega)
        rw [hmod, ih (count - n) (by omega) (addr + n * 4) (off + n) (by omega)]
        refine List.map_congr_left ?_
        intro j _
        simp only [Function.comp_apply, Prod.mk.injEq]
        omega

/-- C8: the multi-chunk wrappers fel_readl_n and fel_writel_n are
equivalent to a single sequential transfer: the concatenation of their
rounds touches exactly the device words addr, addr+4, ..., addr+4*(count-1)
paired in order with buffer word offsets 0, 1, ..., count-1; every round
moves between 1 and 244 words; and count 0 issues no round. -/
theorem c8_wrapper_equiv_sequential (addr count : Nat)
    (h : addr + 4 * count ≤ 2 ^ 32) :
    (fel_readl_n addr 0 count).flatMap roundWords =
      (List.range count).map (fun j => (addr + 4 * j, j)) ∧
    (fel_writel_n addr 0 count).flatMap roundWords =
      (List.range count).map (fun j => (addr + 4 * j, j)) ∧
    (∀ r ∈ fel_readl_n addr 0 count, 1 ≤ r.2.2 ∧ r.2.2 ≤ 244) ∧
    (∀ r ∈ fel_writel_n addr 0 count, 1 ≤ r.2.2 ∧ r.2.2 ≤ 244) ∧
    fel_readl_n addr 0 0 = [] ∧ fel_writel_n addr 0 0 = [] := by
  have hflat := fel_readl_n_flat count addr 0 h
  simp only [Nat.zero_add] at hflat
  refine ⟨hflat, ?_, fel_readl_n_round_bounds addr 0 count, ?_, ?_, ?_⟩
  · rw [fel_writel_n_eq_readl_n]
    exact hflat
  · rw [fel_writel_n_eq_readl_n]
    exact fel_readl_n_round_bounds addr 0 count
  · simp [fel_readl_n]
  · simp [fel_writel_n]

/-- C8 witness: a 500-word transfer (three rounds: 244 + 244 + 12). -/
theorem c8_wrapper_equiv_sequential_witness :
    0x1000 + 4 * 500 ≤ 2 ^ 32 ∧
    ((fel_readl_n 0x1000 0 500).flatMap roundWords =
      (List.range 500).map (fun j => (0x1000 + 4 * j, j)) ∧
     fel_readl_n 0x1000 0 0 = []) :=
  ⟨by norm_num,
   (c8_wrapper_equiv_sequential 0x1000 500 (by norm_num)).1,
   (c8_wrapper_equiv_sequential 0x1000 500 (by norm_num)).2.2.2.2.1⟩

/-! ## Theorems for claims C2 and C1 -/

/-- Helper: sub32 stays below 2^32. -/
theorem sub32_lt (a b : Nat) : sub32 a b < 2 ^ 32 :=
  Nat.mod_lt _ (by norm_num)

/-- Helper: sub32 a b undoes the subtraction of b modulo 2^32. -/
theorem sub32_add_cancel (a b : Nat) :
    (sub32 a b + b) % 2 ^ 32 = a % 2 ^ 32 := by
  unfold sub32
  omega

/-- Helper: folding sub32 over a word list keeps the value below 2^32. -/
theorem foldl_sub32_lt (ws : List Nat) :
    ∀ init, init < 2 ^ 32 → ws.foldl sub32 init < 2 ^ 32 := by
  induction ws with
  | nil => intro init h; simpa using h
  | cons w ws ih =>
    intro init _
    simp only [List.foldl_cons]
    exact ih _ (sub32_lt _ _)

/-- Helper: folding sub32 over a word list subtracts its sum modulo
2^32. -/
theorem foldl_sub32_add_sum (ws : List Nat) :
    ∀ init, (ws.foldl sub32 init + ws.sum) % 2 ^ 32 = init % 2 ^ 32 := by
  induction ws with
  | nil => intro init; simp
  | cons w ws ih =>
    intro init
    simp only [List.foldl_cons, List.sum_cons]
    have h1 := ih (sub32 init w)
    have h2 := sub32_add_cancel init w
    omega

/-- Helper: the uint32_t checksum loop of the eGON validation accepts
exactly when 2*stored - 0x5F0A6C39 - sum of the words vanishes modulo
2^32. -/
theorem egon_checksum_iff (buf : List Nat) :
    ((List.range (word32 buf 4 / 4)).map (word32 buf)).foldl sub32
        (sub32 (2 * word32 buf 3) 0x5F0A6C39) = 0 ↔
      Nat.ModEq (2 ^ 32) (2 * word32 buf 3)
        (0x5F0A6C39 + wordSum buf (word32 buf 4 / 4)) := by
  have hsum : wordSum buf (word32 buf 4 / 4) =
      ((List.range (word32 buf 4 / 4)).map (word32 buf)).sum := rfl
  rw [hsum]
  have h1 := foldl_sub32_add_sum
    ((List.range (word32 buf 4 / 4)).map (word32 buf))
    (sub32 (2 * word32 buf 3) 0x5F0A6C39)
  have h2 := sub32_add_cancel (2 * word32 buf 3) 0x5F0A6C39
  have h3 := foldl_sub32_lt
    ((List.range (word32 buf 4 / 4)).map (word32 buf))
    (sub32 (2 * word32 buf 3) 0x5F0A6C39)
    (sub32_lt (2 * word32 buf 3) 0x5F0A6C39)
  unfold Nat.ModEq
  omega

/-- C2: the eGON validation of aw_fel_write_and_execute_spl accepts a
buffer exactly when it is at least 32 bytes long, bytes 4..11 spell
eGON.BT0, the stored SPL length (word 4) is at most the buffer length and
word-aligned, and 2*stored_checksum - 0x5F0A6C39 minus the sum of the
first spl_len/4 little-endian words vanishes modulo 2^32; any failure is a
fatal exit before any write of the SPL is issued (the model returns the
diagnostic with an empty write list). -/
theorem c2_egon_validation (soc : soc_info_t) (swaps : List sram_swap_buffers)
    (buf : List Nat) (hsw : soc.swap_buffers = some swaps) :
    (egonCheck buf = Except.ok () ↔
      (32 ≤ buf.length ∧
       (buf.getD 4 0 = 0x65 ∧ buf.getD 5 0 = 0x47 ∧ buf.getD 6 0 = 0x4F ∧
        buf.getD 7 0 = 0x4E ∧ buf.getD 8 0 = 0x2E ∧ buf.getD 9 0 = 0x42 ∧
        buf.getD 10 0 = 0x54 ∧ buf.getD 11 0 = 0x30) ∧
       word32 buf 4 ≤ buf.length ∧ word32 buf 4 % 4 = 0 ∧
       Nat.ModEq (2 ^ 32) (2 * word32 buf 3)
         (0x5F0A6C39 + wordSum buf (word32 buf 4 / 4)))) ∧
    (∀ e, egonCheck buf = Except.error e →
      aw_fel_write_and_execute_spl soc buf = ([], some e)) := by
  have hsig : egonSignatureOk buf = true ↔
      (buf.getD 4 0 = 0x65 ∧ buf.getD 5 0 = 0x47 ∧ buf.getD 6 0 = 0x4F ∧
       buf.getD 7 0 = 0x4E ∧ buf.getD 8 0 = 0x2E ∧ buf.getD 9 0 = 0x42 ∧
       buf.getD 10 0 = 0x54 ∧ buf.getD 11 0 = 0x30) := by
    simp [egonSignatureOk, Bool.and_eq_true, beq_iff_eq, and_assoc]
  constructor
  · constructor
    · intro hok
      unfold egonCheck at hok
      by_cases hc1 : buf.length < 32 ∨ egonSignatureOk buf = false
      · rw [if_pos hc1] at hok
        simp at hok
      · rw [if_neg hc1] at hok
        by_cases hc2 : buf.length < word32 buf 4 ∨ word32 buf 4 % 4 ≠ 0
        · rw [if_pos hc2] at hok
          simp at hok
        · rw [if_neg hc2] at hok
          by_cases hc3 : ((List.range (word32 buf 4 / 4)).map
              (word32 buf)).foldl sub32
              (sub32 (2 * word32 buf 3) 0x5F0A6C39) ≠ 0
          · rw [if_pos hc3] at hok
            simp at hok
          · push_neg at hc1 hc2 hc3
            refine ⟨by omega, ?_, by omega, by omega,
                    (egon_checksum_iff buf).mp hc3⟩
            rcases hc1 with ⟨-, hs⟩
            exact hsig.mp (by simpa using hs)
    · rintro ⟨hlen, hbytes, hle, hmod, hck⟩
      unfold egonCheck
      rw [if_neg, if_neg, if_neg]
      · intro hne
        exact hne ((egon_checksum_iff buf).mpr hck)
      · push_neg
        exact ⟨by omega, hmod⟩
      · push_neg
        refine ⟨by omega, ?_⟩
        simp [hsig.mpr hbytes]
  · intro e he
    unfold aw_fel_write_and_execute_spl
    rw [hsw, he]

/-- C2 witness: a concrete 32-byte SPL buffer accepted by the validation,
for which the modular checksum identity therefore holds. -/
theorem c2_egon_validation_witness :
    soc_swap_demo.swap_buffers = some [⟨0x2000, 0xA000, 0x400⟩, ⟨0, 0, 0⟩] ∧
    egonCheck demo_spl = Except.ok () ∧
    Nat.ModEq (2 ^ 32) (2 * word32 demo_spl 3)
      (0x5F0A6C39 + wordSum demo_spl (word32 demo_spl 4 / 4)) :=
  ⟨rfl, by rfl,
   ((c2_egon_validation soc_swap_demo [⟨0x2000, 0xA000, 0x400⟩, ⟨0, 0, 0⟩]
       demo_spl rfl).1.mp (by rfl)).2.2.2.2⟩

/-- C1: the swap-buffer upload loop.  First part: for any loop state whose
cursor lies strictly below buf1 and whose remaining length covers the
stretch up to buf1 plus the swap size, one iteration writes the contiguous
part [cur_addr, buf1) from the buffer cursor, then writes the next size
bytes to buf2 instead of buf1, and resumes past buf1 with cursor
buf1 + size.  Second part: with one swap entry buf1 = 0x2000,
buf2 = 0xA000, size = 0x400 and spl_addr = 0, a 0x3000-byte SPL produces
exactly the writes (0, bytes [0, 0x2000)), (0xA000, bytes [0x2000,
0x2400)), and (0x2400, bytes [0x2400, 0x3000)). -/
theorem c1_swap_buffer_upload (spl_addr : Nat) (s : UploadState)
    (sb : sram_swap_buffers)
    (h1 : s.cur_addr < sb.buf1)
    (h2 : sb.buf1 - s.cur_addr + sb.size ≤ s.len)
    (h3 : 0 < sb.size) :
    ((uploadStep spl_addr s sb).writes =
       s.writes ++ [(s.cur_addr, s.bufOff, sb.buf1 - s.cur_addr),
                    (sb.buf2, s.bufOff + (sb.buf1 - s.cur_addr), sb.size)] ∧
     (uploadStep spl_addr s sb).cur_addr = sb.buf1 + sb.size ∧
     (uploadStep spl_addr s sb).bufOff =
       s.bufOff + (sb.buf1 - s.cur_addr) + sb.size ∧
     (uploadStep spl_addr s sb).len =
       s.len - (sb.buf1 - s.cur_addr) - sb.size) ∧
    spl_upload_trace soc_swap_demo [⟨0x2000, 0xA000, 0x400⟩, ⟨0, 0, 0⟩]
        0x3000 =
      ([(0, 0, 0x2000), (0xA000, 0x2000, 0x400), (0x2400, 0x2400, 0xC00)],
       none) := by
  refine ⟨?_, by decide⟩
  have h0 : 0 < s.len := by omega
  have hm1 : min (sb.buf1 - s.cur_addr) s.len = sb.buf1 - s.cur_addr := by
    omega
  have hm2 : min sb.size (s.len - (sb.buf1 - s.cur_addr)) = sb.size := by
    omega
  have hcond3 : 0 < s.len - (sb.buf1 - s.cur_addr) ∧
      s.cur_addr + (sb.buf1 - s.cur_addr) = sb.buf1 := ⟨by omega, by omega⟩
  unfold uploadStep
  by_cases hA : spl_addr ≤ sb.buf2 ∧ sb.buf2 < spl_addr + s.spl_len_limit
  · simp only [hA, and_self, if_true, ite_true]
    rw [if_pos (show 0 < s.len ∧ s.cur_addr < sb.buf1 from ⟨h0, h1⟩)]
    simp only [hm1]
    rw [if_pos hcond3]
    simp only [hm2]
    refine ⟨?_, ?_, ?_, ?_⟩
    · simp [List.append_assoc]
    · omega
    · trivial
    · trivial
  · simp only [hA, if_false, ite_false]
    rw [if_pos (show 0 < s.len ∧ s.cur_addr < sb.buf1 from ⟨h0, h1⟩)]
    simp only [hm1]
    rw [if_pos hcond3]
    simp only [hm2]
    refine ⟨?_, ?_, ?_, ?_⟩
    · simp [List.append_assoc]
    · omega
    · trivial
    · trivial

/-- C1 witness: one loop iteration at the concrete entry buf1 = 0x2000,
buf2 = 0xA000, size = 0x400 from the initial state of a 0x3000-byte SPL
at spl_addr = 0. -/
theorem c1_swap_buffer_upload_witness :
    ((0 : Nat) < 0x2000 ∧ 0x2000 - 0 + 0x400 ≤ 0x3000 ∧ (0 : Nat) < 0x400) ∧
    ((uploadStep 0 ⟨0, 0, 0x3000, 0x8000, []⟩ ⟨0x2000, 0xA000, 0x400⟩).writes =
       [] ++ [(0, 0, 0x2000 - 0), (0xA000, 0 + (0x2000 - 0), 0x400)] ∧
     (uploadStep 0 ⟨0, 0, 0x3000, 0x8000, []⟩
        ⟨0x2000, 0xA000, 0x400⟩).cur_addr = 0x2000 + 0x400 ∧
     (uploadStep 0 ⟨0, 0, 0x3000, 0x8000, []⟩
        ⟨0x2000, 0xA000, 0x400⟩).bufOff = 0 + (0x2000 - 0) + 0x400 ∧
     (uploadStep 0 ⟨0, 0, 0x3000, 0x8000, []⟩
        ⟨0x2000, 0xA000, 0x400⟩).len = 0x3000 - (0x2000 - 0) - 0x400) :=
  ⟨⟨by decide, by decide, by decide⟩,
   (c1_swap_buffer_upload 0 ⟨0, 0, 0x3000, 0x8000, []⟩ ⟨0x2000, 0xA000, 0x400⟩
      (by decide) (by decide) (by decide)).1⟩

/-! ## Witnesses for claims C6 and C10 -/

/-- C6 witness: a concrete accepted image recording (0x4A000000, 4), then
a write into that range is rejected. -/
theorem c6_overwrite_guard_witness :
    aw_fel_write_uboot_image demo_uboot_image =
      Except.ok (some (0x4A000000, 4)) ∧
    aw_write_buffer 0x4A000000 4 0x4A000002 8 =
      Except.error "ERROR: Attempt to overwrite U-Boot!" :=
  ⟨by rfl,
   c6_overwrite_guard demo_uboot_image 0x4A000000 4 0x4A000002 8 (by rfl)
     (by norm_num) (by norm_num) (by norm_num) (by norm_num)⟩

/-- C10 witness: a write starting exactly at the end of the recorded
U-Boot region is rejected. -/
theorem c10_guard_closed_ends_witness :
    aw_write_buffer 0x4A000000 0x80000 0x4A080000 16 =
      Except.error "ERROR: Attempt to overwrite U-Boot!" :=
  c10_guard_closed_ends 0x4A000000 0x80000 0x4A080000 16 (by norm_num)
    (by norm_num) (Or.inr (by norm_num))

/-! ## List access helpers for the MMU table proofs -/

/-- Helper: getD of a mapped range below the bound. -/
theorem getD_map_range (f : Nat → Nat) (n i : Nat) (h : i < n) :
    ((List.range n).map f).getD i 0 = f i := by
  have hl : i < ((List.range n).map f).length := by simpa using h
  rw [List.getD_eq_getElem?_getD, List.getElem?_eq_getElem hl]
  simp [List.getElem_map, List.getElem_range]

/-- Helper: getD after set at the written index. -/
theorem getD_set_self (l : List Nat) (i v : Nat) (h : i < l.length) :
    (l.set i v).getD i 0 = v := by
  rw [List.getD_eq_getElem?_getD, List.getElem?_set]
  simp [h]

/-- Helper: getD after set at a different index. -/
theorem getD_set_ne (l : List Nat) (i j v : Nat) (h : i ≠ j) :
    (l.set i v).getD j 0 = l.getD j 0 := by
  rw [List.getD_eq_getElem?_getD, List.getElem?_set, if_neg h,
      ← List.getD_eq_getElem?_getD]

/-- Helper: a fold of in-place updates over a contiguous index range
leaves the length unchanged. -/
theorem foldl_set_length (f : Nat → Nat) :
    ∀ (n s : Nat) (l : List Nat),
      ((List.range' s n).foldl (fun t i => t.set i (f (t.getD i 0)))
          l).length = l.length := by
  intro n
  induction n with
  | zero => intro s l; rfl
  | succ n ih =>
    intro s l
    rw [List.range'_succ]
    simp only [List.foldl_cons]
    rw [ih (s + 1) (l.set s (f (l.getD s 0))), List.length_set]

/-- Helper: pointwise description of a fold of in-place updates over a
contiguous index range. -/
theorem foldl_set_getD (f : Nat → Nat) :
    ∀ (n s : Nat) (l : List Nat) (j : Nat),
      ((List.range' s n).foldl (fun t i => t.set i (f (t.getD i 0)))
          l).getD j 0 =
        if s ≤ j ∧ j < s + n ∧ j < l.length then f (l.getD j 0)
        else l.getD j 0 := by
  intro n
  induction n with
  | zero =>
    intro s l j
    rw [if_neg (by omega)]
    rfl
  | succ n ih =>
    intro s l j
    rw [List.range'_succ]
    simp only [List.foldl_cons]
    rw [ih (s + 1) (l.set s (f (l.getD s 0))) j]
    by_cases hsj : s = j
    · subst hsj
      rw [if_neg (by omega)]
      by_cases hlen : s < l.length
      · rw [getD_set_self l s _ hlen, if_pos ⟨Nat.le_refl s, by omega, hlen⟩]
      · rw [List.set_eq_of_length_le (by omega), if_neg (by omega)]
    · rw [List.length_set, getD_set_ne l s j _ hsj]
      by_cases hc : s + 1 ≤ j ∧ j < s + 1 + n ∧ j < l.length
      · rw [if_pos hc, if_pos (by omega)]
      · rw [if_neg hc, if_neg (by omega)]

/-! ## Theorems for claims C3 and C5 -/

/-- Helper: the table sanity check holds exactly when every one of the
4096 entries is a direct-mapped section descriptor. -/
theorem mmuTableOk_iff (tt : List Nat) :
    mmuTableOk tt = true ↔
      ∀ i, i < 4096 →
        ((tt.getD i 0 >>> 1) &&& 1 = 1 ∧ (tt.getD i 0 >>> 18) &&& 1 = 0 ∧
         tt.getD i 0 >>> 20 = i) := by
  simp [mmuTableOk, mmu_section_ok, List.all_eq_true, List.mem_range,
        Bool.and_eq_true, beq_iff_eq, and_assoc]

/-- C3: aw_backup_and_disable_mmu is fatal unless SCTLR with bits 11, 12,
13, 6 and 0 masked off equals 0x00C50038; with SCTLR.M clear it returns no
backup having read only SCTLR (no DACR/TTBCR/TTBR0 or table access);
otherwise it returns the 4096-entry table exactly when DACR = 0x55555555,
TTBCR = 0, the low 14 bits of TTBR0 are zero, and every entry i has bit 1
set, bit 18 clear and high bits equal to i. -/
theorem c3_backup_validation (sctlr dacr ttbcr ttbr0 : Nat) (tt : List Nat) :
    (sctlr &&& (0xFFFFFFFF ^^^ ((0x7 <<< 11) ||| (1 <<< 6) ||| 1)) ≠
        0x00C50038 →
      (aw_backup_and_disable_mmu sctlr dacr ttbcr ttbr0 tt).result =
        Except.error "Unexpected SCTLR") ∧
    (sctlr &&& (0xFFFFFFFF ^^^ ((0x7 <<< 11) ||| (1 <<< 6) ||| 1)) =
        0x00C50038 → sctlr &&& 1 = 0 →
      aw_backup_and_disable_mmu sctlr dacr ttbcr ttbr0 tt =
        ⟨["SCTLR"], false, Except.ok none⟩) ∧
    (sctlr &&& (0xFFFFFFFF ^^^ ((0x7 <<< 11) ||| (1 <<< 6) ||| 1)) =
        0x00C50038 → sctlr &&& 1 ≠ 0 →
      ((aw_backup_and_disable_mmu sctlr dacr ttbcr ttbr0 tt).result =
          Except.ok (some tt) ↔
        (dacr = 0x55555555 ∧ ttbcr = 0 ∧ ttbr0 &&& 0x3FFF = 0 ∧
         ∀ i, i < 4096 →
           ((tt.getD i 0 >>> 1) &&& 1 = 1 ∧
            (tt.getD i 0 >>> 18) &&& 1 = 0 ∧
            tt.getD i 0 >>> 20 = i)))) := by
  refine ⟨?_, ?_, ?_⟩
  · intro hbad
    unfold aw_backup_and_disable_mmu
    rw [if_pos hbad]
  · intro hmask hm
    unfold aw_backup_and_disable_mmu
    rw [if_neg (by omega), if_pos hm]
  · intro hmask hm
    unfold aw_backup_and_disable_mmu
    rw [if_neg (by omega), if_neg hm]
    constructor
    · intro hok
      by_cases h1 : dacr ≠ 0x55555555
      · rw [if_pos h1] at hok
        simp at hok
      · rw [if_neg h1] at hok
        by_cases h2 : ttbcr ≠ 0
        · rw [if_pos h2] at hok
          simp at hok
        · rw [if_neg h2] at hok
          by_cases h3 : ttbr0 &&& 0x3FFF ≠ 0
          · rw [if_pos h3] at hok
            simp at hok
          · rw [if_neg h3] at hok
            by_cases h4 : mmuTableOk tt = false
            · rw [if_pos h4] at hok
              simp at hok
            · push_neg at h1 h2 h3
              refine ⟨h1, h2, h3, (mmuTableOk_iff tt).mp ?_⟩
              cases hmt : mmuTableOk tt
              · exact absurd hmt h4
              · rfl
    · rintro ⟨h1, h2, h3, h4⟩
      rw [if_neg (by simp [h1]), if_neg (by simp [h2]),
          if_neg (by simp [h3]),
          if_neg (by rw [(mmuTableOk_iff tt).mpr h4]; simp)]

/-- C3 witness: with the BROM default SCTLR value 0x00C50038 (M clear) the
backup path returns no backup after reading only SCTLR. -/
theorem c3_backup_validation_witness :
    (0x00C50038 &&& (0xFFFFFFFF ^^^ ((0x7 <<< 11) ||| (1 <<< 6) ||| 1)) =
      0x00C50038) ∧ (0x00C50038 &&& 1 = 0) ∧
    aw_backup_and_disable_mmu 0x00C50038 0 0 0 [] =
      ⟨["SCTLR"], false, Except.ok none⟩ :=
  ⟨by decide, by decide,
   (c3_backup_validation 0x00C50038 0 0 0 []).2.1 (by decide) (by decide)⟩

/-- C5: with no MMU backup and a nonzero 16K-aligned mmu_tt_addr the
loader issues exactly the register writes DACR := 0x55555555, TTBCR := 0,
TTBR0 := mmu_tt_addr and synthesizes the 4096-entry flat table whose
entry i is 0x00000DE2 | (i << 20), with bit 12 additionally set at
indices 0 and 0xFFF. -/
theorem c5_mmu_synthesis (a : Nat) (h0 : a ≠ 0) (h1 : a &&& 0x3FFF = 0) :
    spl_mmu_setup none a =
      Except.ok ([cp_reg_write.dacr 0x55555555, cp_reg_write.ttbcr 0,
                  cp_reg_write.ttbr0 a],
                 some aw_generate_mmu_translation_table) ∧
    aw_generate_mmu_translation_table.length = 4096 ∧
    (∀ i, i < 4096 →
      aw_generate_mmu_translation_table.getD i 0 =
        if i = 0 ∨ i = 0xFFF then 0x00000DE2 ||| (i <<< 20) ||| 0x1000
        else 0x00000DE2 ||| (i <<< 20)) := by
  have hlen : aw_generate_mmu_translation_table.length = 4096 := by
    simp [aw_generate_mmu_translation_table]
  refine ⟨?_, hlen, ?_⟩
  · unfold spl_mmu_setup
    rw [if_pos h0, if_neg (by simp [h1])]
  · intro i hi
    unfold aw_generate_mmu_translation_table
    by_cases hF : i = 0xFFF
    · subst hF
      rw [getD_set_self _ _ _ (by simp), if_pos (Or.inr rfl)]
      rw [getD_set_ne _ _ _ _ (by omega), getD_map_range _ _ _ (by omega)]
    · rw [getD_set_ne _ _ _ _ (by omega)]
      by_cases h0i : i = 0
      · subst h0i
        rw [getD_set_self _ _ _ (by simp), if_pos (Or.inl rfl)]
        rw [getD_map_range _ _ _ (by omega)]
      · rw [getD_set_ne _ _ _ _ (by omega),
            getD_map_range _ _ _ (by omega), if_neg (by omega)]

/-- C5 witness: the synthesis at the aligned address 0x8000, and the
value of a generic table entry. -/
theorem c5_mmu_synthesis_witness :
    (0x8000 : Nat) ≠ 0 ∧ ((0x8000 : Nat) &&& 0x3FFF = 0) ∧
    spl_mmu_setup none 0x8000 =
      Except.ok ([cp_reg_write.dacr 0x55555555, cp_reg_write.ttbcr 0,
                  cp_reg_write.ttbr0 0x8000],
                 some aw_generate_mmu_translation_table) ∧
    aw_generate_mmu_translation_table.getD 5 0 =
      0x00000DE2 ||| (5 <<< 20) :=
  ⟨by decide, by decide,
   (c5_mmu_synthesis 0x8000 (by decide) (by decide)).1,
   by
     have h := (c5_mmu_synthesis 0x8000 (by decide) (by decide)).2.2 5
       (by decide)
     simpa using h⟩

/-! ## Bit-level lemmas about the TEX/C/B update, and claim C4 -/

/-- Helper: the TEX/C/B mask has no bits at positions 15 and above. -/
theorem texcb_mask_testBit_high (j : Nat) (h : 15 ≤ j) :
    texcb_clear_mask.testBit j = false :=
  Nat.testBit_eq_false_of_lt
    (lt_of_lt_of_le (by decide : texcb_clear_mask < 2 ^ 15)
      (Nat.pow_le_pow_right (by norm_num) h))

/-- Helper: bit j of texcb_update e b, for a 32-bit entry e: the mask bits
come from b, all others from e. -/
theorem texcb_update_testBit (e b j : Nat) (he : e < 2 ^ 32) :
    (texcb_update e b).testBit j =
      ((e.testBit j && !(texcb_clear_mask.testBit j)) || b.testBit j) := by
  unfold texcb_update
  rw [Nat.testBit_or, Nat.testBit_and, Nat.testBit_xor]
  by_cases hj : j < 32
  · have h1 : (0xFFFFFFFF : Nat).testBit j = true := by
      interval_cases j <;> decide
    rw [h1]
    simp [Bool.true_xor]
  · have hge : 32 ≤ j := by omega
    have h1 : (0xFFFFFFFF : Nat).testBit j = false :=
      Nat.testBit_eq_false_of_lt (lt_of_lt_of_le (by norm_num)
        (Nat.pow_le_pow_right (by norm_num) hge))
    have h2 : texcb_clear_mask.testBit j = false :=
      texcb_mask_testBit_high j (by omega)
    have h3 : e.testBit j = false :=
      Nat.testBit_eq_false_of_lt (lt_of_lt_of_le he
        (Nat.pow_le_pow_right (by norm_num) hge))
    rw [h1, h2, h3]
    rfl

/-- Helper: the TEX/C/B bits of the updated entry equal b (for b within
the mask). -/
theorem texcb_update_and_mask (e b : Nat) (he : e < 2 ^ 32)
    (hb : b &&& texcb_clear_mask = b) :
    texcb_update e b &&& texcb_clear_mask = b := by
  apply Nat.eq_of_testBit_eq
  intro j
  rw [Nat.testBit_and, texcb_update_testBit e b j he]
  have hbj : (b.testBit j && texcb_clear_mask.testBit j) = b.testBit j := by
    rw [← Nat.testBit_and, hb]
  cases hM : texcb_clear_mask.testBit j <;>
    cases hB : b.testBit j <;> simp_all

/-- Helper: the non-TEX/C/B bits of the updated entry are unchanged. -/
theorem texcb_update_and_compl (e b : Nat) (he : e < 2 ^ 32)
    (hb : b &&& texcb_clear_mask = b) :
    texcb_update e b &&& (0xFFFFFFFF ^^^ texcb_clear_mask) =
      e &&& (0xFFFFFFFF ^^^ texcb_clear_mask) := by
  apply Nat.eq_of_testBit_eq
  intro j
  rw [Nat.testBit_and, Nat.testBit_and, texcb_update_testBit e b j he,
      Nat.testBit_xor]
  have hbj : (b.testBit j && texcb_clear_mask.testBit j) = b.testBit j := by
    rw [← Nat.testBit_and, hb]
  by_cases hj : j < 32
  · have h1 : (0xFFFFFFFF : Nat).testBit j = true := by
      interval_cases j <;> decide
    rw [h1]
    cases hM : texcb_clear_mask.testBit j <;>
      cases hB : b.testBit j <;> simp_all
  · have hge : 32 ≤ j := by omega
    have h1 : (0xFFFFFFFF : Nat).testBit j = false :=
      Nat.testBit_eq_false_of_lt (lt_of_lt_of_le (by norm_num)
        (Nat.pow_le_pow_right (by norm_num) hge))
    have h2 : texcb_clear_mask.testBit j = false :=
      texcb_mask_testBit_high j (by omega)
    rw [h1, h2]
    simp

/-- Helper: a bit outside the mask and outside b is unchanged by the
update. -/
theorem texcb_update_testBit_low (e b j : Nat) (he : e < 2 ^ 32)
    (hM : texcb_clear_mask.testBit j = false) (hb : b.testBit j = false) :
    (texcb_update e b).testBit j = e.testBit j := by
  rw [texcb_update_testBit e b j he, hM, hb]
  simp

/-- Helper: shifting the updated entry by at least 15 ignores the
update. -/
theorem texcb_update_shiftRight (e b k : Nat) (he : e < 2 ^ 32)
    (hb : b < 2 ^ 15) (hk : 15 ≤ k) :
    texcb_update e b >>> k = e >>> k := by
  apply Nat.eq_of_testBit_eq
  intro j
  rw [Nat.testBit_shiftRight, Nat.testBit_shiftRight]
  exact texcb_update_testBit_low e b (k + j) he
    (texcb_mask_testBit_high _ (by omega))
    (Nat.testBit_eq_false_of_lt (lt_of_lt_of_le hb
      (Nat.pow_le_pow_right (by norm_num) (by omega))))

/-- Helper: (e >>> k) &&& 1 is the k-th bit of e as 0 or 1. -/
theorem shift_and_one_eq (e k : Nat) :
    (e >>> k) &&& 1 = if e.testBit k then 1 else 0 := by
  rw [Nat.and_one_is_mod, Nat.shiftRight_eq_div_pow,
      Nat.testBit_to_div_mod]
  by_cases h : e / 2 ^ k % 2 = 1
  · simp [h]
  · simp [h]
    omega

/-- Helper: bit-k extraction commutes with the update when k is outside
mask and b. -/
theorem texcb_update_shift_and_one (e b k : Nat) (he : e < 2 ^ 32)
    (hM : texcb_clear_mask.testBit k = false) (hb : b.testBit k = false) :
    (texcb_update e b >>> k) &&& 1 = (e >>> k) &&& 1 := by
  rw [shift_and_one_eq, shift_and_one_eq,
      texcb_update_testBit_low e b k he hM hb]

/-- Helper: pointwise description of the restore-path table rewrite. -/
theorem aw_restore_getD (tt : List Nat) (hlen : tt.length = 4096)
    (j : Nat) (hj : j < 4096) :
    (aw_restore_and_enable_mmu tt).getD j 0 =
      if j = 0xFFF then
        texcb_update (tt.getD j 0) ((1 <<< 12) ||| (1 <<< 3) ||| (1 <<< 2))
      else if 0x400 ≤ j ∧ j < 0xC00 then
        texcb_update (tt.getD j 0) (1 <<< 12)
      else tt.getD j 0 := by
  have hfl := foldl_set_getD (fun e => texcb_update e (1 <<< 12)) 0x800
    0x400 tt
  have hfLen := foldl_set_length (fun e => texcb_update e (1 <<< 12)) 0x800
    0x400 tt
  simp only [aw_restore_and_enable_mmu]
  by_cases hF : j = 0xFFF
  · subst hF
    rw [getD_set_self _ _ _ (by rw [hfLen, hlen]; norm_num), if_pos rfl,
        hfl 0xFFF, if_neg (by omega)]
  · rw [getD_set_ne _ _ _ _ (fun h => hF h.symm), if_neg hF, hfl j]
    by_cases hd : 0x400 ≤ j ∧ j < 0xC00
    · rw [if_pos ⟨hd.1, by omega, by omega⟩, if_pos hd]
    · rw [if_neg (by omega), if_neg hd]

/-- C4: for a table of the backup-path shape, the restore path rewrites
only the TEX/C/B bits (14..12, 3, 2) of the DRAM entries 0x400..0xBFF
(to 00100) and of entry 0xFFF (to 00111); every other entry is unchanged,
every non-TEX/C/B bit of the modified entries is unchanged, and the
section-descriptor shape (bit 1 set, bit 18 clear, high bits = index)
holds for all 4096 entries afterwards. -/
theorem c4_restore_frame (tt : List Nat) (hlen : tt.length = 4096)
    (hshape : ∀ i, i < 4096 → tt.getD i 0 < 2 ^ 32 ∧
      tt.getD i 0 >>> 20 = i ∧ (tt.getD i 0 >>> 1) &&& 1 = 1 ∧
      (tt.getD i 0 >>> 18) &&& 1 = 0) :
    (aw_restore_and_enable_mmu tt).length = 4096 ∧
    (∀ i, i < 4096 → ¬(0x400 ≤ i ∧ i < 0xC00) → i ≠ 0xFFF →
      (aw_restore_and_enable_mmu tt).getD i 0 = tt.getD i 0) ∧
    (∀ i, i < 4096 →
      (aw_restore_and_enable_mmu tt).getD i 0 &&&
          (0xFFFFFFFF ^^^ texcb_clear_mask) =
        tt.getD i 0 &&& (0xFFFFFFFF ^^^ texcb_clear_mask)) ∧
    (∀ i, 0x400 ≤ i → i < 0xC00 →
      (aw_restore_and_enable_mmu tt).getD i 0 &&& texcb_clear_mask =
        1 <<< 12) ∧
    ((aw_restore_and_enable_mmu tt).getD 0xFFF 0 &&& texcb_clear_mask =
      (1 <<< 12) ||| (1 <<< 3) ||| (1 <<< 2)) ∧
    (∀ i, i < 4096 →
      (aw_restore_and_enable_mmu tt).getD i 0 >>> 20 = i ∧
      ((aw_restore_and_enable_mmu tt).getD i 0 >>> 1) &&& 1 = 1 ∧
      ((aw_restore_and_enable_mmu tt).getD i 0 >>> 18) &&& 1 = 0) := by
  have hB1m : ((1 <<< 12 : Nat)) &&& texcb_clear_mask = 1 <<< 12 := by
    decide
  have hB2m : (((1 <<< 12) ||| (1 <<< 3) ||| (1 <<< 2) : Nat)) &&&
      texcb_clear_mask = (1 <<< 12) ||| (1 <<< 3) ||| (1 <<< 2) := by decide
  have hB1lt : (1 <<< 12 : Nat) < 2 ^ 15 := by decide
  have hB2lt : ((1 <<< 12) ||| (1 <<< 3) ||| (1 <<< 2) : Nat) < 2 ^ 15 := by
    decide
  have hB1t1 : (1 <<< 12 : Nat).testBit 1 = false := by decide
  have hB2t1 : ((1 <<< 12) ||| (1 <<< 3) ||| (1 <<< 2) : Nat).testBit 1 =
      false := by decide
  have hMt1 : texcb_clear_mask.testBit 1 = false := by decide
  have hLen : (aw_restore_and_enable_mmu tt).length = 4096 := by
    have hfLen := foldl_set_length (fun e => texcb_update e (1 <<< 12))
      0x800 0x400 tt
    simp only [aw_restore_and_enable_mmu]
    rw [List.length_set, hfLen, hlen]
  refine ⟨hLen, ?_, ?_, ?_, ?_, ?_⟩
  · intro i hi hd hF
    rw [aw_restore_getD tt hlen i hi, if_neg hF, if_neg hd]
  · intro i hi
    rw [aw_restore_getD tt hlen i hi]
    by_cases hF : i = 0xFFF
    · rw [if_pos hF]
      exact texcb_update_and_compl _ _ (hshape i hi).1 hB2m
    · rw [if_neg hF]
      by_cases hd : 0x400 ≤ i ∧ i < 0xC00
      · rw [if_pos hd]
        exact texcb_update_and_compl _ _ (hshape i hi).1 hB1m
      · rw [if_neg hd]
  · intro i h4 hc
    rw [aw_restore_getD tt hlen i (by omega), if_neg (by omega),
        if_pos ⟨h4, hc⟩]
    exact texcb_update_and_mask _ _ (hshape i (by omega)).1 hB1m
  · rw [aw_restore_getD tt hlen 0xFFF (by norm_num), if_pos rfl]
    exact texcb_update_and_mask _ _ (hshape 0xFFF (by norm_num)).1 hB2m
  · intro i hi
    obtain ⟨he, h20, h1b, h18⟩ := hshape i hi
    rw [aw_restore_getD tt hlen i hi]
    by_cases hF : i = 0xFFF
    · rw [if_pos hF]
      refine ⟨?_, ?_, ?_⟩
      · rw [texcb_update_shiftRight _ _ 20 he hB2lt (by norm_num)]
        exact h20
      · rw [texcb_update_shift_and_one _ _ 1 he hMt1 hB2t1]
        exact h1b
      · rw [texcb_update_shiftRight _ _ 18 he hB2lt (by norm_num)]
        exact h18
    · rw [if_neg hF]
      by_cases hd : 0x400 ≤ i ∧ i < 0xC00
      · rw [if_pos hd]
        refine ⟨?_, ?_, ?_⟩
        · rw [texcb_update_shiftRight _ _ 20 he hB1lt (by norm_num)]
          exact h20
        · rw [texcb_update_shift_and_one _ _ 1 he hMt1 hB1t1]
          exact h1b
        · rw [texcb_update_shiftRight _ _ 18 he hB1lt (by norm_num)]
          exact h18
      · rw [if_neg hd]
        exact ⟨h20, h1b, h18⟩

/-- C4 witness: a concrete direct-mapped table of the backup shape, for
which the BROM entry receives TEX/C/B = 00111. -/
theorem c4_restore_frame_witness :
    ((List.range 4096).map (fun i => i * 2 ^ 20 + 2)).length = 4096 ∧
    ((aw_restore_and_enable_mmu
        ((List.range 4096).map (fun i => i * 2 ^ 20 + 2))).getD 0xFFF 0 &&&
      texcb_clear_mask = (1 <<< 12) ||| (1 <<< 3) ||| (1 <<< 2)) := by
  have hlen : ((List.range 4096).map (fun i => i * 2 ^ 20 + 2)).length =
      4096 := by simp
  have hshape : ∀ i, i < 4096 →
      ((List.range 4096).map (fun i => i * 2 ^ 20 + 2)).getD i 0 < 2 ^ 32 ∧
      ((List.range 4096).map (fun i => i * 2 ^ 20 + 2)).getD i 0 >>> 20 =
        i ∧
      (((List.range 4096).map (fun i => i * 2 ^ 20 + 2)).getD i 0 >>> 1)
        &&& 1 = 1 ∧
      (((List.range 4096).map (fun i => i * 2 ^ 20 + 2)).getD i 0 >>> 18)
        &&& 1 = 0 := by
    intro i hi
    rw [getD_map_range _ _ _ hi]
    refine ⟨by omega, ?_, ?_, ?_⟩
    · rw [Nat.shiftRight_eq_div_pow]
      omega
    · rw [Nat.shiftRight_eq_div_pow, Nat.and_one_is_mod]
      omega
    · rw [Nat.shiftRight_eq_div_pow, Nat.and_one_is_mod]
      omega
  exact ⟨hlen, (c4_restore_frame _ hlen hshape).2.2.2.2.1⟩

end Fel
